import Mathlib

/-!
Shallow embedding of `src/packages/plugin-twitter/src/spaces.ts`
(class `TwitterSpaceClient`): configuration resolution, launch cooldown,
the speaker admission engine (request handling, queue drain, duration
eviction, capacity trim), the session lifecycle (`startSpace`,
`stopSpace`, `manageCurrentSpace`, `joinSpace`), and the
`waitForApproval` event/timeout race.

Modelling conventions: JS numbers are `Int` (timestamps, durations) or
`Nat` (counts); `undefined`/`null` is `Option.none`; JS truthiness tests
on numbers and strings are explicit (`0` and `""` are falsy); each
awaited remote call that may throw is an explicit success/failure
parameter of the embedding, and a `try/catch` that swallows the error is
modelled by the embedded function being total in that parameter.
-/

/-- Pending speaker request (fields of `SpeakerRequest` the code uses). -/
structure SpeakerRequest where
  userId : String
  sessionUUID : String
  username : String
  deriving DecidableEq, Repr

/-- `CurrentSpeakerState`: an admitted speaker with its admission time. -/
structure CurrentSpeakerState where
  userId : String
  sessionUUID : String
  username : String
  startTime : Int
  deriving DecidableEq, Repr

/-- `SpaceActivity` enum from the source. -/
inductive SpaceActivity where
  | HOSTING
  | PARTICIPATING
  | IDLE
  deriving DecidableEq, Repr

/-- The `character.settings.twitter.spaces` source block: every field
optional (`none` models a JS `undefined`/`null` field). -/
structure SpacesSourceSettings where
  maxSpeakers : Option Nat
  typicalDurationMinutes : Option Nat
  idleKickTimeoutMs : Option Nat
  minIntervalBetweenSpacesMinutes : Option Nat
  enableIdleMonitor : Option Bool
  enableSpaceHosting : Option Bool
  enableRecording : Option Bool
  speakerMaxDurationMs : Option Nat
  deriving DecidableEq, Repr

/-- Resolved `TwitterSpaceDecisionOptions` (all fields present after the
constructor runs). -/
structure TwitterSpaceDecisionOptions where
  maxSpeakers : Nat
  typicalDurationMinutes : Nat
  idleKickTimeoutMs : Nat
  minIntervalBetweenSpacesMinutes : Nat
  enableIdleMonitor : Bool
  enableSpaceHosting : Bool
  enableRecording : Bool
  speakerMaxDurationMs : Nat
  deriving DecidableEq, Repr

/-- Constructor body of `TwitterSpaceClient` (spaces.ts lines 72-83):
numeric fields use `??` (nullish coalescing: the default applies only
when the source field is absent), `enableIdleMonitor` and
`enableRecording` are `!== false`, and `enableSpaceHosting` is
`|| false` (falsy coalescing). -/
def resolveDecisionOptions (c : SpacesSourceSettings) : TwitterSpaceDecisionOptions :=
  { maxSpeakers := c.maxSpeakers.getD 1
    typicalDurationMinutes := c.typicalDurationMinutes.getD 30
    idleKickTimeoutMs := c.idleKickTimeoutMs.getD (5 * 60000)
    minIntervalBetweenSpacesMinutes := c.minIntervalBetweenSpacesMinutes.getD 60
    enableIdleMonitor := decide (c.enableIdleMonitor ≠ some false)
    enableSpaceHosting := c.enableSpaceHosting.getD false
    enableRecording := decide (c.enableRecording ≠ some false)
    speakerMaxDurationMs := c.speakerMaxDurationMs.getD (4 * 60000) }

/-- Modelled from the spec: the resolution rule as the spec states it —
"All fields have defaults; source values override defaults only when
present and non-falsy" (falsy: `0` for numbers, `false` for booleans).
Used only to compare the spec's rule with `resolveDecisionOptions`. -/
def specResolveDecisionOptions (c : SpacesSourceSettings) : TwitterSpaceDecisionOptions :=
  let num : Option Nat → Nat → Nat := fun o d =>
    match o with
    | none => d
    | some v => if v = 0 then d else v
  let bool : Option Bool → Bool → Bool := fun o d =>
    match o with
    | none => d
    | some v => if v then v else d
  { maxSpeakers := num c.maxSpeakers 1
    typicalDurationMinutes := num c.typicalDurationMinutes 30
    idleKickTimeoutMs := num c.idleKickTimeoutMs (5 * 60000)
    minIntervalBetweenSpacesMinutes := num c.minIntervalBetweenSpacesMinutes 60
    enableIdleMonitor := bool c.enableIdleMonitor true
    enableSpaceHosting := bool c.enableSpaceHosting false
    enableRecording := bool c.enableRecording true
    speakerMaxDurationMs := num c.speakerMaxDurationMs (4 * 60000) }

/-- Source settings block with every field absent. -/
def emptySpacesSettings : SpacesSourceSettings :=
  { maxSpeakers := none
    typicalDurationMinutes := none
    idleKickTimeoutMs := none
    minIntervalBetweenSpacesMinutes := none
    enableIdleMonitor := none
    enableSpaceHosting := none
    enableRecording := none
    speakerMaxDurationMs := none }

/-- Options resolved from an empty settings block (all defaults). -/
def defaultDecisionOptions : TwitterSpaceDecisionOptions :=
  resolveDecisionOptions emptySpacesSettings

/-- Mutable fields of `TwitterSpaceClient` that the embedded operations
read or write.  `currentSpace : Bool` records whether the room session
handle is present (`this.currentSpace` is an opaque object; only its
presence matters to control flow), likewise `spaceParticipant`. -/
structure SpaceClientState where
  spaceStatus : SpaceActivity
  currentSpace : Bool
  spaceId : Option String
  startedAt : Option Int
  lastSpaceEndedAt : Option Int
  activeSpeakers : List CurrentSpeakerState
  speakerQueue : List SpeakerRequest
  spaceParticipant : Bool
  decisionOptions : TwitterSpaceDecisionOptions
  deriving DecidableEq, Repr

/-- Freshly constructed client: status IDLE, nothing set. -/
def freshClient : SpaceClientState :=
  { spaceStatus := SpaceActivity.IDLE
    currentSpace := false
    spaceId := none
    startedAt := none
    lastSpaceEndedAt := none
    activeSpeakers := []
    speakerQueue := []
    spaceParticipant := false
    decisionOptions := defaultDecisionOptions }

/-- JS truthiness of an optional string (`undefined` and `""` are falsy). -/
def jsFalsyStr (o : Option String) : Bool :=
  match o with
  | none => true
  | some s => s.isEmpty

/-- `shouldLaunchSpace` (spaces.ts lines 145-160).  The guard
`if (this.lastSpaceEndedAt)` is a JS truthiness test, so a stored
timestamp of `0` behaves like an absent one. -/
def shouldLaunchSpace (s : SpaceClientState) (now : Int) : Bool :=
  match s.lastSpaceEndedAt with
  | none => true
  | some t =>
    if t = 0 then true
    else
      let minIntervalMs : Int :=
        (s.decisionOptions.minIntervalBetweenSpacesMinutes : Int) * 60000
      if now - t < minIntervalMs then false else true

/-- Client state whose last session ended at timestamp 0. -/
def epochEndedClient : SpaceClientState :=
  { freshClient with lastSpaceEndedAt := some 0 }

/-- C3 counterexample: the claim says eligibility is false whenever
`lastSessionEndedAt` is defined and `now - lastSessionEndedAt` is below
the interval.  With `lastSpaceEndedAt = some 0` (defined) and
`now = 1000` the elapsed time `1000` is far below the default interval
`60 * 60000`, yet `shouldLaunchSpace` returns true: the source tests
`if (this.lastSpaceEndedAt)`, a truthiness check under which the
timestamp `0` counts as absent. -/
theorem shouldLaunchSpace_cooldown_cex :
    shouldLaunchSpace epochEndedClient 1000 = true ∧
    epochEndedClient.lastSpaceEndedAt = some 0 ∧
    (1000 : Int) - 0 <
      (epochEndedClient.decisionOptions.minIntervalBetweenSpacesMinutes : Int) * 60000 := by
  refine ⟨rfl, rfl, ?_⟩
  decide

/-- C3 (amended): `shouldLaunchSpace` returns false iff
`lastSpaceEndedAt` is defined *and nonzero* (JS truthiness) and
`now - lastSpaceEndedAt < minIntervalBetweenSpacesMinutes * 60000`; when
the marker is absent (or zero), and at or beyond the boundary, it
returns true. -/
theorem shouldLaunchSpace_cooldown_amended (s : SpaceClientState) (now : Int) :
    shouldLaunchSpace s now = false ↔
      ∃ t, s.lastSpaceEndedAt = some t ∧ t ≠ 0 ∧
        now - t < (s.decisionOptions.minIntervalBetweenSpacesMinutes : Int) * 60000 := by
  unfold shouldLaunchSpace
  cases h : s.lastSpaceEndedAt with
  | none => simp
  | some t =>
    by_cases h0 : t = 0
    · simp [h0]
    · by_cases hlt :
        now - t < (s.decisionOptions.minIntervalBetweenSpacesMinutes : Int) * 60000
      · simp [h0, hlt]
      · simp [h0, hlt]

/-- C3 amended witness: at `lastSpaceEndedAt = some 100`, `now = 200`,
default interval, eligibility is false. -/
theorem shouldLaunchSpace_cooldown_amended_witness :
    shouldLaunchSpace { freshClient with lastSpaceEndedAt := some 100 } 200 = false := by
  have h := shouldLaunchSpace_cooldown_amended
    { freshClient with lastSpaceEndedAt := some 100 } 200
  exact h.mpr ⟨100, rfl, by decide, by decide⟩

/-- Source settings whose `maxSpeakers` is present but zero. -/
def zeroMaxSettings : SpacesSourceSettings :=
  { emptySpacesSettings with maxSpeakers := some 0 }

/-- C9 counterexample: the claim says a falsy source value is replaced by
the default and that the resolved `maxSpeakers` is always at least 1.
With source `maxSpeakers = some 0` (present but falsy) the constructor's
`??` keeps the 0, disagreeing with the spec's falsy rule, and the
resolved `maxSpeakers` is 0 < 1. -/
theorem decision_options_cex :
    (resolveDecisionOptions zeroMaxSettings).maxSpeakers = 0 ∧
    (specResolveDecisionOptions zeroMaxSettings).maxSpeakers = 1 ∧
    ¬ 1 ≤ (resolveDecisionOptions zeroMaxSettings).maxSpeakers := by
  refine ⟨rfl, rfl, ?_⟩
  decide

/-- C9 (amended): the constructor resolves numeric fields with `??`
(default only when the field is absent, so a present 0 is kept),
`enableIdleMonitor`/`enableRecording` with `!== false` (default true,
overridden only by an explicit false), and `enableSpaceHosting` with
`|| false`.  This agrees with the spec's absent-or-falsy rule — and
yields `maxSpeakers ≥ 1` — whenever no numeric field is a present 0 and
neither `!== false` boolean is an explicit false (the cases where the
code keeps the falsy source value instead of the default). -/
theorem decision_options_amended (c : SpacesSourceSettings)
    (h1 : c.maxSpeakers ≠ some 0)
    (h2 : c.typicalDurationMinutes ≠ some 0)
    (h3 : c.idleKickTimeoutMs ≠ some 0)
    (h4 : c.minIntervalBetweenSpacesMinutes ≠ some 0)
    (h5 : c.speakerMaxDurationMs ≠ some 0)
    (h6 : c.enableIdleMonitor ≠ some false)
    (h7 : c.enableRecording ≠ some false) :
    resolveDecisionOptions c = specResolveDecisionOptions c ∧
      1 ≤ (resolveDecisionOptions c).maxSpeakers := by
  have num : ∀ (o : Option Nat) (d : Nat), o ≠ some 0 →
      o.getD d = (match o with | none => d | some v => if v = 0 then d else v) := by
    intro o d ho
    cases o with
    | none => rfl
    | some v =>
      have hv : v ≠ 0 := by
        intro h
        exact ho (by rw [h])
      simp [hv]
  have hbooli : decide (c.enableIdleMonitor ≠ some false) =
      (match c.enableIdleMonitor with | none => true | some v => if v then v else true) := by
    cases h : c.enableIdleMonitor with
    | none => simp
    | some v =>
      cases v
      · exact absurd h h6
      · simp
  have hboolr : decide (c.enableRecording ≠ some false) =
      (match c.enableRecording with | none => true | some v => if v then v else true) := by
    cases h : c.enableRecording with
    | none => simp
    | some v =>
      cases v
      · exact absurd h h7
      · simp
  have hboolh : c.enableSpaceHosting.getD false =
      (match c.enableSpaceHosting with | none => false | some v => if v then v else false) := by
    cases c.enableSpaceHosting with
    | none => rfl
    | some v => cases v <;> rfl
  constructor
  · unfold resolveDecisionOptions specResolveDecisionOptions
    simp only [TwitterSpaceDecisionOptions.mk.injEq]
    exact ⟨num _ _ h1, num _ _ h2, num _ _ h3, num _ _ h4,
      hbooli, hboolh, hboolr, num _ _ h5⟩
  · unfold resolveDecisionOptions
    cases h : c.maxSpeakers with
    | none => simp
    | some v =>
      have hv : v ≠ 0 := by
        intro hz
        exact h1 (hz ▸ h)
      simpa using Nat.one_le_iff_ne_zero.mpr hv

/-- C9 amended witness: with an empty settings block every hypothesis
holds and the resolved options agree with the spec's rule, with
`maxSpeakers = 1`. -/
theorem decision_options_amended_witness :
    resolveDecisionOptions emptySpacesSettings = specResolveDecisionOptions emptySpacesSettings ∧
      1 ≤ (resolveDecisionOptions emptySpacesSettings).maxSpeakers :=
  decision_options_amended emptySpacesSettings
    (by decide) (by decide) (by decide) (by decide) (by decide) (by decide) (by decide)

/-- `ActiveSpeaker` record built when a request is admitted
(`acceptSpeaker` pushes `{userId, sessionUUID, username, startTime: Date.now()}`). -/
def speakerOf (now : Int) (req : SpeakerRequest) : CurrentSpeakerState :=
  { userId := req.userId
    sessionUUID := req.sessionUUID
    username := req.username
    startTime := now }

/-- `acceptSpeaker` (spaces.ts lines 407-424): no-op without a session
handle; otherwise `approveSpeaker` is awaited inside `try` — on success
(`approveOk = true`) the speaker is appended to `activeSpeakers` with
`startTime = now`, on failure the error is caught and logged and the
state is untouched.  The embedding being total in `approveOk` models
that the error never propagates to the caller. -/
def acceptSpeaker (approveOk : Bool) (now : Int) (req : SpeakerRequest)
    (s : SpaceClientState) : SpaceClientState :=
  if s.currentSpace = false then s
  else if approveOk then
    { s with activeSpeakers := s.activeSpeakers ++ [speakerOf now req] }
  else s

/-- The `while` loop of `acceptSpeakersFromQueueIfNeeded` (spaces.ts
lines 365-382), recursion on the queue: while the queue is non-empty and
`activeSpeakers.length < maxSpeakers`, shift the head and run
`acceptSpeaker` on it (which appends only when the handle is present and
approval succeeds).  `approveOk` gives the outcome of each request's
`approveSpeaker` call. -/
def acceptLoop (approveOk : SpeakerRequest → Bool) (now : Int) (currentSpace : Bool)
    (queue : List SpeakerRequest) (active : List CurrentSpeakerState) (ms : Nat) :
    List SpeakerRequest × List CurrentSpeakerState :=
  match queue with
  | [] => ([], active)
  | req :: rest =>
    if active.length < ms then
      let active' :=
        if currentSpace && approveOk req then active ++ [speakerOf now req] else active
      acceptLoop approveOk now currentSpace rest active' ms
    else (req :: rest, active)

/-- `acceptSpeakersFromQueueIfNeeded` as a state operation. -/
def acceptSpeakersFromQueueIfNeeded (approveOk : SpeakerRequest → Bool) (now : Int)
    (s : SpaceClientState) : SpaceClientState :=
  let r := acceptLoop approveOk now s.currentSpace s.speakerQueue s.activeSpeakers
    s.decisionOptions.maxSpeakers
  { s with speakerQueue := r.1, activeSpeakers := r.2 }

/-- `handleSpeakerRequest` (spaces.ts lines 384-405): no-op without a
(truthy) space id and a session handle; otherwise compares the
room-reported speaker count (`janusCount`, the length of
`audioSpace.participants.speakers`) — not the local active set — against
`maxSpeakers`: below it, admit immediately; at or above it, append the
request to the tail of the queue. -/
def handleSpeakerRequest (janusCount : Nat) (req : SpeakerRequest) (approveOk : Bool)
    (now : Int) (s : SpaceClientState) : SpaceClientState :=
  if jsFalsyStr s.spaceId = true ∨ s.currentSpace = false then s
  else if janusCount < s.decisionOptions.maxSpeakers then
    acceptSpeaker approveOk now req s
  else
    { s with speakerQueue := s.speakerQueue ++ [req] }

/-- Duration eviction (step 1 of `manageCurrentSpace`, spaces.ts lines
307-324): every speaker with `now - startTime > speakerMaxDurationMs` is
spliced out (the source iterates in reverse; the local removal happens
even when the remote `removeSpeaker` call fails, since that call catches
its own errors). -/
def evictOverdue (now : Int) (maxDur : Nat) (active : List CurrentSpeakerState) :
    List CurrentSpeakerState :=
  active.filter (fun sp => decide (now - sp.startTime ≤ (maxDur : Int)))

/-- Remove the first element with the given `userId`
(`findIndex` + `splice` in `kickExtraSpeakers`). -/
def removeFirstByUserId (uid : String) : List CurrentSpeakerState → List CurrentSpeakerState
  | [] => []
  | sp :: rest => if sp.userId = uid then rest else sp :: removeFirstByUserId uid rest

/-- `kickExtraSpeakers` (spaces.ts lines 443-463): drop the first
`maxSpeakers` entries of the room-reported speaker list, and for each
remaining (extra) entry remove the matching `userId` from the local
active set. -/
def kickExtraSpeakers (ms : Nat) (roomSpeakers : List String)
    (active : List CurrentSpeakerState) : List CurrentSpeakerState :=
  (roomSpeakers.drop ms).foldl (fun acc uid => removeFirstByUserId uid acc) active

/-- Auto-close condition of `manageCurrentSpace` (spaces.ts lines
338-345), stated in milliseconds: `elapsedMinutes = elapsedMs / 60000`
with exact rational division, so `elapsedMinutes > m` is equivalent to
`elapsedMs > m * 60000`.  `startedAt || 0` resolves an absent (or zero)
start time to 0. -/
def manageShouldStop (opts : TwitterSpaceDecisionOptions) (startedAt : Option Int)
    (now : Int) (numSpeakers totalListeners : Nat) : Bool :=
  let elapsedMs := now - startedAt.getD 0
  decide ((opts.typicalDurationMinutes : Int) * 60000 < elapsedMs) ||
    (numSpeakers == 0 && totalListeners == 0 && decide ((5 : Int) * 60000 < elapsedMs))

/-- What the room poll (`getAudioSpaceById`) reports: speaker user ids in
room order, and the listener count. -/
structure RoomReport where
  speakers : List String
  listeners : Nat
  deriving DecidableEq, Repr

/-- `stopSpace` (spaces.ts lines 465-481): no-op without a session
handle or when already IDLE; otherwise `currentSpace.stop()` runs inside
`try/catch` and the `finally` block unconditionally resets the state
(status IDLE, `spaceId`/handle/`startedAt` cleared,
`lastSpaceEndedAt = now`, active set and queue emptied).  `closeOk`
models whether the remote close succeeded; the result does not depend on
it, which is the `finally` semantics, and the function is total: no
error escapes. -/
def stopSpace (_closeOk : Bool) (s : SpaceClientState) (now : Int) : SpaceClientState :=
  if s.currentSpace = false ∨ s.spaceStatus = SpaceActivity.IDLE then s
  else
    { s with
      spaceStatus := SpaceActivity.IDLE
      spaceId := none
      currentSpace := false
      startedAt := none
      lastSpaceEndedAt := some now
      activeSpeakers := []
      speakerQueue := [] }

/-- Outcomes of the awaited calls inside `startSpace`:
`roomIdResult = some id` when the room open call returns that room id,
`none` when it throws; `postOpenOk` is whether every awaited step after
the open (plugin attach, announce tweet, greeting) succeeds. -/
structure StartEffects where
  roomIdResult : Option String
  postOpenOk : Bool
  deriving DecidableEq, Repr

/-- `startSpace` (spaces.ts lines 187-288).  Lines 191-198 run first:
session handle created, status forced to IDLE, `spaceId` cleared,
`startedAt := now`, active set and queue reset.  Then the room open is
awaited; on success `spaceId` is captured and, after the remaining
steps, status becomes HOSTING.  The `catch` (lines 283-287) only resets
status to IDLE and rethrows: `startedAt` (and `spaceId`, when already
captured) are left as the failed attempt set them.  The second
component is whether the call threw (error propagated to the caller). -/
def startSpace (s : SpaceClientState) (now : Int) (eff : StartEffects) :
    SpaceClientState × Bool :=
  let s1 := { s with
    currentSpace := true
    spaceStatus := SpaceActivity.IDLE
    spaceId := none
    startedAt := some now
    activeSpeakers := []
    speakerQueue := [] }
  match eff.roomIdResult with
  | none => ({ s1 with spaceStatus := SpaceActivity.IDLE }, true)
  | some roomId =>
    let s2 := { s1 with spaceId := some roomId }
    if eff.postOpenOk then ({ s2 with spaceStatus := SpaceActivity.HOSTING }, false)
    else ({ s2 with spaceStatus := SpaceActivity.IDLE }, true)

/-- Standalone duration-eviction step (step 1 of `manageCurrentSpace`). -/
def evictOp (now : Int) (s : SpaceClientState) : SpaceClientState :=
  { s with
    activeSpeakers := evictOverdue now s.decisionOptions.speakerMaxDurationMs s.activeSpeakers }

/-- Capacity-trim step of `manageCurrentSpace` (step 3, spaces.ts lines
329-335): only when the room reports more speakers than `maxSpeakers`,
run `kickExtraSpeakers` on the room list. -/
def manageTrim (report : RoomReport) (s : SpaceClientState) : SpaceClientState :=
  if s.decisionOptions.maxSpeakers < report.speakers.length then
    { s with
      activeSpeakers :=
        kickExtraSpeakers s.decisionOptions.maxSpeakers report.speakers s.activeSpeakers }
  else s

/-- `manageCurrentSpace` (spaces.ts lines 293-360): no-op without a
truthy space id and a session handle; otherwise, in order: duration
eviction, queue drain, capacity trim, then the auto-close check, which
calls `stopSpace`. -/
def manageCurrentSpace (report : RoomReport) (approveOk : SpeakerRequest → Bool)
    (closeOk : Bool) (now : Int) (s : SpaceClientState) : SpaceClientState :=
  if jsFalsyStr s.spaceId = true ∨ s.currentSpace = false then s
  else if manageShouldStop s.decisionOptions s.startedAt now report.speakers.length
      report.listeners then
    stopSpace closeOk
      (manageTrim report (acceptSpeakersFromQueueIfNeeded approveOk now (evictOp now s))) now
  else
    manageTrim report (acceptSpeakersFromQueueIfNeeded approveOk now (evictOp now s))

/-- Outcomes of the awaited calls inside `joinSpace`: whether
`joinAsListener`, `requestSpeaker`, the approval wait, and
`cancelSpeakerRequest` succeed. -/
structure JoinEffects where
  joinAsListenerOk : Bool
  requestSpeakerOk : Bool
  approvalOk : Bool
  cancelOk : Bool
  deriving DecidableEq, Repr

/-- `joinSpace` (spaces.ts lines 483-534).  Returns the state, the
value returned to the caller (`some spaceId` or `null`), and how many
times `cancelSpeakerRequest` was attempted.  Rejected (null, unchanged
state) when status is not IDLE; `joinAsListener` failure is caught and
yields null; after a successful listener join, status is
PARTICIPATING (note: the session-handle field `currentSpace` is not
set on this path), and a `requestSpeaker` failure also falls into the
outer catch (null).  When the approval wait fails, the inner catch
attempts one cancellation — whose own failure is only logged — and
control falls through to `return spaceId`, so the caller still receives
the space id. -/
def joinSpace (s : SpaceClientState) (spaceId : String) (eff : JoinEffects) :
    SpaceClientState × Option String × Nat :=
  if s.spaceStatus ≠ SpaceActivity.IDLE then (s, none, 0)
  else
    let s1 := { s with spaceParticipant := true }
    if eff.joinAsListenerOk = false then (s1, none, 0)
    else
      let s2 := { s1 with spaceStatus := SpaceActivity.PARTICIPATING }
      if eff.requestSpeakerOk = false then (s2, none, 0)
      else if eff.approvalOk then (s2, some spaceId, 0)
      else (s2, some spaceId, 1)

/-- One admission-engine / lifecycle operation, with the outcomes of its
awaited remote calls as data. -/
inductive Op where
  | start (now : Int) (eff : StartEffects)
  | stop (closeOk : Bool) (now : Int)
  | join (spaceId : String) (eff : JoinEffects)
  | handleReq (janusCount : Nat) (req : SpeakerRequest) (approveOk : Bool) (now : Int)
  | drain (approveOk : SpeakerRequest → Bool) (now : Int)
  | evict (now : Int)
  | kick (roomSpeakers : List String)
  | manage (report : RoomReport) (approveOk : SpeakerRequest → Bool)
      (closeOk : Bool) (now : Int)

/-- Standalone capacity-trim step (`kickExtraSpeakers` is a no-op
without a session handle). -/
def kickOp (roomSpeakers : List String) (s : SpaceClientState) : SpaceClientState :=
  if s.currentSpace = false then s
  else
    { s with
      activeSpeakers :=
        kickExtraSpeakers s.decisionOptions.maxSpeakers roomSpeakers s.activeSpeakers }

/-- Apply one operation to the client state. -/
def applyOp (s : SpaceClientState) (op : Op) : SpaceClientState :=
  match op with
  | .start now eff => (startSpace s now eff).1
  | .stop closeOk now => stopSpace closeOk s now
  | .join spaceId eff => (joinSpace s spaceId eff).1
  | .handleReq janusCount req approveOk now => handleSpeakerRequest janusCount req approveOk now s
  | .drain approveOk now => acceptSpeakersFromQueueIfNeeded approveOk now s
  | .evict now => evictOp now s
  | .kick roomSpeakers => kickOp roomSpeakers s
  | .manage report approveOk closeOk now => manageCurrentSpace report approveOk closeOk now s

/-- Run a sequence of operations. -/
def runOps (s : SpaceClientState) (ops : List Op) : SpaceClientState :=
  ops.foldl applyOp s

/-- Concrete request fixtures. -/
def reqA : SpeakerRequest :=
  { userId := "userA", sessionUUID := "sessA", username := "alice" }

/-- Second concrete request fixture. -/
def reqB : SpeakerRequest :=
  { userId := "userB", sessionUUID := "sessB", username := "bob" }

/-- Client hosting a session (as after a successful `startSpace`). -/
def hostingClient : SpaceClientState :=
  { freshClient with
    spaceStatus := SpaceActivity.HOSTING
    currentSpace := true
    spaceId := some "room1"
    startedAt := some 0 }

/-- Hosting client with two queued speaker requests. -/
def queuedClient : SpaceClientState :=
  { hostingClient with speakerQueue := [reqA, reqB] }

theorem acceptLoop_order (approveOk : SpeakerRequest → Bool) (now : Int) (ms : Nat) :
    ∀ (queue : List SpeakerRequest) (active : List CurrentSpeakerState),
      ∃ k, acceptLoop approveOk now true queue active ms =
        (queue.drop k, active ++ ((queue.take k).filter approveOk).map (speakerOf now)) := by
  intro queue
  induction queue with
  | nil =>
    intro active
    exact ⟨0, by simp [acceptLoop]⟩
  | cons req rest ih =>
    intro active
    by_cases h : active.length < ms
    · by_cases ha : approveOk req = true
      · obtain ⟨k, hk⟩ := ih (active ++ [speakerOf now req])
        exact ⟨k + 1, by simp [acceptLoop, h, ha, hk, List.filter_cons]⟩
      · obtain ⟨k, hk⟩ := ih active
        exact ⟨k + 1, by simp [acceptLoop, h, ha, hk, List.filter_cons]⟩
    · exact ⟨0, by simp [acceptLoop, h]⟩

theorem acceptLoop_length_le (approveOk : SpeakerRequest → Bool) (now : Int)
    (cs : Bool) (ms : Nat) :
    ∀ (queue : List SpeakerRequest) (active : List CurrentSpeakerState),
      active.length ≤ ms → (acceptLoop approveOk now cs queue active ms).2.length ≤ ms := by
  intro queue
  induction queue with
  | nil => intro active h; simpa [acceptLoop] using h
  | cons req rest ih =>
    intro active h
    by_cases hlt : active.length < ms
    · simp only [acceptLoop, if_pos hlt]
      refine ih _ ?_
      split
      · simp only [List.length_append, List.length_singleton]
        omega
      · omega
    · simpa [acceptLoop, hlt] using h

theorem removeFirstByUserId_length_le (uid : String) :
    ∀ l : List CurrentSpeakerState, (removeFirstByUserId uid l).length ≤ l.length := by
  intro l
  induction l with
  | nil => simp [removeFirstByUserId]
  | cons sp rest ih =>
    by_cases h : sp.userId = uid
    · simp [removeFirstByUserId, h]
    · simp only [removeFirstByUserId, if_neg h, List.length_cons]
      omega

theorem kickExtraSpeakers_length_le (ms : Nat) (roomSpeakers : List String) :
    ∀ active, (kickExtraSpeakers ms roomSpeakers active).length ≤ active.length := by
  unfold kickExtraSpeakers
  generalize roomSpeakers.drop ms = extras
  induction extras with
  | nil => intro active; simp
  | cons uid rest ih =>
    intro active
    simp only [List.foldl_cons]
    exact le_trans (ih _) (removeFirstByUserId_length_le uid active)

/-- C10: `acceptSpeaker` is atomic with respect to local bookkeeping —
when the room's `approveSpeaker` call fails the active set (indeed the
whole state) is unchanged and no error reaches the caller (the embedded
function is total in the approval outcome); when it succeeds and a
session handle is present, the speaker is appended with
`startTime = now`. -/
theorem acceptSpeaker_atomic (s : SpaceClientState) (req : SpeakerRequest) (now : Int) :
    acceptSpeaker false now req s = s ∧
    (s.currentSpace = true →
      acceptSpeaker true now req s =
        { s with activeSpeakers := s.activeSpeakers ++ [speakerOf now req] }) ∧
    (s.currentSpace = false → acceptSpeaker true now req s = s) := by
  refine ⟨?_, ?_, ?_⟩
  · unfold acceptSpeaker
    split <;> simp
  · intro h
    simp [acceptSpeaker, h]
  · intro h
    simp [acceptSpeaker, h]

/-- C10 witness: on the hosting client, a failed approval leaves the
state unchanged and a successful one appends the speaker with
`startTime = 50`. -/
theorem acceptSpeaker_atomic_witness :
    acceptSpeaker false 50 reqA hostingClient = hostingClient ∧
    acceptSpeaker true 50 reqA hostingClient =
      { hostingClient with
        activeSpeakers := hostingClient.activeSpeakers ++ [speakerOf 50 reqA] } :=
  ⟨(acceptSpeaker_atomic hostingClient reqA 50).1,
   (acceptSpeaker_atomic hostingClient reqA 50).2.1 rfl⟩

/-- C4: the pending queue is strict FIFO.  First conjunct: a request
arriving while the room is at capacity is appended to the tail of the
queue.  Second conjunct: the queue drain removes a prefix of the queue
and appends exactly the approved requests of that prefix, in queue
order, to the active set — so two requests enqueued in order are
admitted in that order, and pending requests are admitted in exactly the
order they were appended. -/
theorem speaker_queue_fifo :
    (∀ (s : SpaceClientState) (janusCount : Nat) (req : SpeakerRequest)
        (approveOk : Bool) (now : Int),
      jsFalsyStr s.spaceId = false → s.currentSpace = true →
      s.decisionOptions.maxSpeakers ≤ janusCount →
      (handleSpeakerRequest janusCount req approveOk now s).speakerQueue =
        s.speakerQueue ++ [req]) ∧
    (∀ (approveOk : SpeakerRequest → Bool) (now : Int) (s : SpaceClientState),
      s.currentSpace = true →
      ∃ k, acceptSpeakersFromQueueIfNeeded approveOk now s =
        { s with
          speakerQueue := s.speakerQueue.drop k
          activeSpeakers := s.activeSpeakers ++
            ((s.speakerQueue.take k).filter approveOk).map (speakerOf now) }) := by
  constructor
  · intro s janusCount req approveOk now hid hcs hms
    have hg : ¬ (jsFalsyStr s.spaceId = true ∨ s.currentSpace = false) := by
      simp [hid, hcs]
    have hlt : ¬ (janusCount < s.decisionOptions.maxSpeakers) := not_lt.mpr hms
    simp [handleSpeakerRequest, hg, hlt]
  · intro approveOk now s hcs
    obtain ⟨k, hk⟩ := acceptLoop_order approveOk now s.decisionOptions.maxSpeakers
      s.speakerQueue s.activeSpeakers
    refine ⟨k, ?_⟩
    unfold acceptSpeakersFromQueueIfNeeded
    rw [hcs, hk]

/-- C4 witness: on the hosting client (capacity 1, room already at
capacity) a request is enqueued at the tail; and draining the queued
client admits a prefix of `[reqA, reqB]` in order. -/
theorem speaker_queue_fifo_witness :
    (handleSpeakerRequest 1 reqA true 60 hostingClient).speakerQueue =
      hostingClient.speakerQueue ++ [reqA] ∧
    ∃ k, acceptSpeakersFromQueueIfNeeded (fun _ => true) 60 queuedClient =
      { queuedClient with
        speakerQueue := queuedClient.speakerQueue.drop k
        activeSpeakers := queuedClient.activeSpeakers ++
          ((queuedClient.speakerQueue.take k).filter (fun _ => true)).map (speakerOf 60) } :=
  ⟨speaker_queue_fifo.1 hostingClient 1 reqA true 60 (by decide) rfl (by decide),
   speaker_queue_fifo.2 (fun _ => true) 60 queuedClient rfl⟩

/-- Side condition of the amended capacity invariant: a speaker-request
event must observe a room-reported speaker count that is at least the
local active-speaker count (the admission check in
`handleSpeakerRequest` compares the room count, not the local count,
against `maxSpeakers`).  All other operations need no condition. -/
def stepOk (s : SpaceClientState) (op : Op) : Prop :=
  match op with
  | .handleReq janusCount _ _ _ => s.activeSpeakers.length ≤ janusCount
  | _ => True

/-- `okTrace s ops`: every operation of `ops`, run from `s`, satisfies
`stepOk` in the state where it executes. -/
def okTrace : SpaceClientState → List Op → Prop
  | _, [] => True
  | s, op :: ops => stepOk s op ∧ okTrace (applyOp s op) ops

theorem stopSpace_capacity (closeOk : Bool) (s : SpaceClientState) (now : Int)
    (h : s.activeSpeakers.length ≤ s.decisionOptions.maxSpeakers) :
    (stopSpace closeOk s now).activeSpeakers.length ≤
      (stopSpace closeOk s now).decisionOptions.maxSpeakers := by
  unfold stopSpace
  split
  · exact h
  · simp

theorem drain_capacity (approveOk : SpeakerRequest → Bool) (now : Int)
    (s : SpaceClientState)
    (h : s.activeSpeakers.length ≤ s.decisionOptions.maxSpeakers) :
    (acceptSpeakersFromQueueIfNeeded approveOk now s).activeSpeakers.length ≤
      (acceptSpeakersFromQueueIfNeeded approveOk now s).decisionOptions.maxSpeakers :=
  acceptLoop_length_le approveOk now s.currentSpace s.decisionOptions.maxSpeakers
    s.speakerQueue s.activeSpeakers h

theorem evictOp_capacity (now : Int) (s : SpaceClientState)
    (h : s.activeSpeakers.length ≤ s.decisionOptions.maxSpeakers) :
    (evictOp now s).activeSpeakers.length ≤ (evictOp now s).decisionOptions.maxSpeakers :=
  le_trans (List.length_filter_le _ s.activeSpeakers) h

theorem manageTrim_capacity (report : RoomReport) (s : SpaceClientState)
    (h : s.activeSpeakers.length ≤ s.decisionOptions.maxSpeakers) :
    (manageTrim report s).activeSpeakers.length ≤
      (manageTrim report s).decisionOptions.maxSpeakers := by
  unfold manageTrim
  split
  · exact le_trans (kickExtraSpeakers_length_le _ _ s.activeSpeakers) h
  · exact h

theorem kickOp_capacity (roomSpeakers : List String) (s : SpaceClientState)
    (h : s.activeSpeakers.length ≤ s.decisionOptions.maxSpeakers) :
    (kickOp roomSpeakers s).activeSpeakers.length ≤
      (kickOp roomSpeakers s).decisionOptions.maxSpeakers := by
  unfold kickOp
  split
  · exact h
  · exact le_trans (kickExtraSpeakers_length_le _ _ s.activeSpeakers) h

theorem handle_capacity (janusCount : Nat) (req : SpeakerRequest) (approveOk : Bool)
    (now : Int) (s : SpaceClientState)
    (hok : s.activeSpeakers.length ≤ janusCount)
    (h : s.activeSpeakers.length ≤ s.decisionOptions.maxSpeakers) :
    (handleSpeakerRequest janusCount req approveOk now s).activeSpeakers.length ≤
      (handleSpeakerRequest janusCount req approveOk now s).decisionOptions.maxSpeakers := by
  unfold handleSpeakerRequest
  split
  · exact h
  split
  · rename_i hg hlt
    unfold acceptSpeaker
    split
    · exact h
    split
    · show (s.activeSpeakers ++ [speakerOf now req]).length ≤ s.decisionOptions.maxSpeakers
      simp only [List.length_append, List.length_singleton]
      omega
    · exact h
  · exact h

theorem start_capacity (s : SpaceClientState) (now : Int) (eff : StartEffects) :
    (startSpace s now eff).1.activeSpeakers.length ≤
      (startSpace s now eff).1.decisionOptions.maxSpeakers := by
  obtain ⟨r, p⟩ := eff
  cases r with
  | none => simp [startSpace]
  | some roomId =>
    by_cases hp : p = true
    · simp [startSpace, hp]
    · simp [startSpace, hp]

theorem join_state_eq (s : SpaceClientState) (sid : String) (eff : JoinEffects) :
    (joinSpace s sid eff).1.activeSpeakers = s.activeSpeakers ∧
      (joinSpace s sid eff).1.decisionOptions = s.decisionOptions := by
  unfold joinSpace
  split
  · exact ⟨rfl, rfl⟩
  split
  · exact ⟨rfl, rfl⟩
  split
  · exact ⟨rfl, rfl⟩
  split
  · exact ⟨rfl, rfl⟩
  · exact ⟨rfl, rfl⟩

theorem applyOp_capacity (s : SpaceClientState) (op : Op) (hok : stepOk s op)
    (h : s.activeSpeakers.length ≤ s.decisionOptions.maxSpeakers) :
    (applyOp s op).activeSpeakers.length ≤ (applyOp s op).decisionOptions.maxSpeakers := by
  cases op with
  | start now eff => exact start_capacity s now eff
  | stop closeOk now => exact stopSpace_capacity closeOk s now h
  | join sid eff =>
    have he := join_state_eq s sid eff
    rw [show (applyOp s (Op.join sid eff)) = (joinSpace s sid eff).1 from rfl, he.1, he.2]
    exact h
  | handleReq janusCount req approveOk now => exact handle_capacity _ _ _ _ _ hok h
  | drain approveOk now => exact drain_capacity approveOk now s h
  | evict now => exact evictOp_capacity now s h
  | kick roomSpeakers => exact kickOp_capacity roomSpeakers s h
  | manage report approveOk closeOk now =>
    show (manageCurrentSpace report approveOk closeOk now s).activeSpeakers.length ≤
      (manageCurrentSpace report approveOk closeOk now s).decisionOptions.maxSpeakers
    unfold manageCurrentSpace
    split
    · exact h
    split
    · exact stopSpace_capacity _ _ _
        (manageTrim_capacity _ _ (drain_capacity _ _ _ (evictOp_capacity _ _ h)))
    · exact manageTrim_capacity _ _ (drain_capacity _ _ _ (evictOp_capacity _ _ h))

/-- C1 counterexample: with `maxSpeakers = 1` and the room reporting 0
speakers to both events (a speaker count the room can report), two
speaker requests are both admitted immediately — `handleSpeakerRequest`
compares the room count, not the local count, to `maxSpeakers` — so the
local active-speaker collection reaches length 2 > 1 after the second
operation completes. -/
theorem capacity_invariant_cex :
    ¬ ((runOps hostingClient
          [Op.handleReq 0 reqA true 10, Op.handleReq 0 reqB true 20]).activeSpeakers.length ≤
        (runOps hostingClient
          [Op.handleReq 0 reqA true 10, Op.handleReq 0 reqB true 20]).decisionOptions.maxSpeakers) := by
  have hlen : (runOps hostingClient
      [Op.handleReq 0 reqA true 10, Op.handleReq 0 reqB true 20]).activeSpeakers.length = 2 := rfl
  have hms : (runOps hostingClient
      [Op.handleReq 0 reqA true 10, Op.handleReq 0 reqB true 20]).decisionOptions.maxSpeakers = 1 := rfl
  omega

/-- C1 (amended): after every sequence of admission-engine / lifecycle
operations, `activeSpeakers.length ≤ maxSpeakers` holds — provided every
`speakerRequest` event observes a room-reported speaker count at least
the local active count at that moment (`okTrace`).  Without that
proviso the invariant fails (see the counterexample): the admission
check compares the room-reported count, not the local count, against
`maxSpeakers`. -/
theorem capacity_invariant_amended :
    ∀ (ops : List Op) (s : SpaceClientState),
      okTrace s ops →
      s.activeSpeakers.length ≤ s.decisionOptions.maxSpeakers →
      (runOps s ops).activeSpeakers.length ≤ (runOps s ops).decisionOptions.maxSpeakers := by
  intro ops
  induction ops with
  | nil =>
    intro s _ h
    simpa [runOps] using h
  | cons op rest ih =>
    intro s hok h
    have h1 := applyOp_capacity s op hok.1 h
    simpa [runOps] using ih (applyOp s op) hok.2 h1

/-- C1 amended witness: a request event observing a room count of 2
(at least the local count 0) keeps the invariant on the hosting client. -/
theorem capacity_invariant_amended_witness :
    (runOps hostingClient [Op.handleReq 2 reqA true 10]).activeSpeakers.length ≤
      (runOps hostingClient [Op.handleReq 2 reqA true 10]).decisionOptions.maxSpeakers :=
  capacity_invariant_amended [Op.handleReq 2 reqA true 10] hostingClient
    ⟨(by decide : hostingClient.activeSpeakers.length ≤ 2), trivial⟩ (by decide)

/-- C2 counterexample: the claim says two consecutive `stopSpace` calls
leave status IDLE both times.  After a successful `joinSpace` the status
is PARTICIPATING but no session-handle field is set, so both `stopSpace`
calls take the no-op branch and the status remains PARTICIPATING, not
IDLE. -/
theorem stopSpace_idempotent_cex :
    (joinSpace freshClient "sp1" ⟨true, true, true, true⟩).1.spaceStatus =
        SpaceActivity.PARTICIPATING ∧
    (joinSpace freshClient "sp1" ⟨true, true, true, true⟩).1.currentSpace = false ∧
    (stopSpace true (joinSpace freshClient "sp1" ⟨true, true, true, true⟩).1 7).spaceStatus =
        SpaceActivity.PARTICIPATING ∧
    (stopSpace true
        (stopSpace true (joinSpace freshClient "sp1" ⟨true, true, true, true⟩).1 7)
        8).spaceStatus = SpaceActivity.PARTICIPATING ∧
    SpaceActivity.PARTICIPATING ≠ SpaceActivity.IDLE := by
  refine ⟨rfl, rfl, rfl, rfl, ?_⟩
  decide

/-- C2 (amended): `stopSpace` is a no-op when the status is already IDLE
or there is no session handle; otherwise — regardless of whether the
remote room close succeeds — it resets status to IDLE, clears `spaceId`,
the session handle and `startedAt`, sets `lastSpaceEndedAt` to the
current time, and empties the active set and the queue.  The result
never depends on the close outcome (no error escapes), and a second call
leaves the first call's state unchanged.  Status is IDLE after both
calls whenever a session handle is present or the status is already
IDLE; in the participant state (no handle, status PARTICIPATING) both
calls are no-ops and the status stays PARTICIPATING. -/
theorem stopSpace_idempotent_amended (s : SpaceClientState) (r1 r2 : Bool) (n1 n2 : Int) :
    (s.spaceStatus = SpaceActivity.IDLE ∨ s.currentSpace = false →
      stopSpace r1 s n1 = s) ∧
    (s.spaceStatus ≠ SpaceActivity.IDLE → s.currentSpace = true →
      stopSpace r1 s n1 =
        { s with
          spaceStatus := SpaceActivity.IDLE
          spaceId := none
          currentSpace := false
          startedAt := none
          lastSpaceEndedAt := some n1
          activeSpeakers := []
          speakerQueue := [] }) ∧
    stopSpace r1 s n1 = stopSpace r2 s n1 ∧
    stopSpace r2 (stopSpace r1 s n1) n2 = stopSpace r1 s n1 ∧
    (s.currentSpace = true ∨ s.spaceStatus = SpaceActivity.IDLE →
      (stopSpace r1 s n1).spaceStatus = SpaceActivity.IDLE ∧
      (stopSpace r2 (stopSpace r1 s n1) n2).spaceStatus = SpaceActivity.IDLE) := by
  have hguard : ∀ (b : Bool) (n : Int) (t : SpaceClientState),
      t.currentSpace = false ∨ t.spaceStatus = SpaceActivity.IDLE → stopSpace b t n = t := by
    intro b n t h
    unfold stopSpace
    rw [if_pos h]
  have hreset : ∀ (b : Bool) (n : Int),
      ¬ (s.currentSpace = false ∨ s.spaceStatus = SpaceActivity.IDLE) →
      stopSpace b s n =
        { s with
          spaceStatus := SpaceActivity.IDLE
          spaceId := none
          currentSpace := false
          startedAt := none
          lastSpaceEndedAt := some n
          activeSpeakers := []
          speakerQueue := [] } := by
    intro b n h
    unfold stopSpace
    rw [if_neg h]
  refine ⟨?_, ?_, ?_, ?_, ?_⟩
  · intro h
    exact hguard r1 n1 s (h.elim Or.inr Or.inl)
  · intro hne hcs
    exact hreset r1 n1 (by simp [hcs, hne])
  · by_cases hc : s.currentSpace = false ∨ s.spaceStatus = SpaceActivity.IDLE
    · rw [hguard r1 n1 s hc, hguard r2 n1 s hc]
    · rw [hreset r1 n1 hc, hreset r2 n1 hc]
  · by_cases hc : s.currentSpace = false ∨ s.spaceStatus = SpaceActivity.IDLE
    · rw [hguard r1 n1 s hc, hguard r2 n2 s hc]
    · rw [hreset r1 n1 hc]
      exact hguard r2 n2 _ (Or.inl rfl)
  · intro h
    by_cases hc : s.currentSpace = false ∨ s.spaceStatus = SpaceActivity.IDLE
    · have hidle : s.spaceStatus = SpaceActivity.IDLE := by
        rcases hc with hc | hc
        · rcases h with h | h
          · rw [h] at hc
            exact absurd hc (by decide)
          · exact h
        · exact hc
      rw [hguard r1 n1 s hc]
      rw [hguard r2 n2 s hc]
      exact ⟨hidle, hidle⟩
    · rw [hreset r1 n1 hc]
      refine ⟨rfl, ?_⟩
      rw [hguard r2 n2 _ (Or.inl rfl)]

/-- C2 amended witness: stopping the hosting client resets it (status
IDLE) and a second stop changes nothing. -/
theorem stopSpace_idempotent_amended_witness :
    stopSpace true hostingClient 9 =
      { hostingClient with
        spaceStatus := SpaceActivity.IDLE
        spaceId := none
        currentSpace := false
        startedAt := none
        lastSpaceEndedAt := some 9
        activeSpeakers := []
        speakerQueue := [] } ∧
    stopSpace false (stopSpace true hostingClient 9) 11 = stopSpace true hostingClient 9 ∧
    (stopSpace true hostingClient 9).spaceStatus = SpaceActivity.IDLE :=
  ⟨(stopSpace_idempotent_amended hostingClient true false 9 11).2.1 (by decide) rfl,
   (stopSpace_idempotent_amended hostingClient true false 9 11).2.2.2.1,
   ((stopSpace_idempotent_amended hostingClient true false 9 11).2.2.2.2
      (Or.inl rfl)).1⟩

/-- C6 counterexample: when the room open call inside `startSpace`
throws, the error propagates (second component true) and the status
reverts to IDLE, but `startedAt` remains defined — the `catch` block
only resets the status. -/
theorem lifecycle_markers_cex :
    (startSpace freshClient 5 ⟨none, true⟩).2 = true ∧
    (startSpace freshClient 5 ⟨none, true⟩).1.spaceStatus = SpaceActivity.IDLE ∧
    (startSpace freshClient 5 ⟨none, true⟩).1.startedAt = some 5 ∧
    some 5 ≠ (none : Option Int) := by
  refine ⟨rfl, rfl, rfl, ?_⟩
  decide

/-- Marker invariant: while the status is HOSTING, both `spaceId` and
`startedAt` are defined. -/
def hostingMarkersInv (s : SpaceClientState) : Prop :=
  s.spaceStatus = SpaceActivity.HOSTING →
    s.spaceId.isSome = true ∧ s.startedAt.isSome = true

theorem manageTrim_preserves (r : RoomReport) (t : SpaceClientState) :
    (manageTrim r t).spaceStatus = t.spaceStatus ∧
    (manageTrim r t).spaceId = t.spaceId ∧
    (manageTrim r t).startedAt = t.startedAt := by
  unfold manageTrim
  split <;> exact ⟨rfl, rfl, rfl⟩

/-- C6 (amended): `spaceId` and `startedAt` are both defined whenever
status is HOSTING — a successful open sets them before HOSTING, every
operation preserves the implication, and a real stop clears them
together with the status.  But the claim's IDLE direction fails: when
the open throws, status reverts to IDLE while `startedAt` (and
`spaceId`, when the room id was already captured) remains defined from
the failed attempt. -/
theorem lifecycle_markers_amended :
    (∀ (s : SpaceClientState) (now : Int) (roomId : String),
      (startSpace s now ⟨some roomId, true⟩).1.spaceStatus = SpaceActivity.HOSTING ∧
      (startSpace s now ⟨some roomId, true⟩).1.spaceId = some roomId ∧
      (startSpace s now ⟨some roomId, true⟩).1.startedAt = some now) ∧
    (∀ (s : SpaceClientState) (now : Int) (eff : StartEffects),
      (startSpace s now eff).2 = true →
      (startSpace s now eff).1.spaceStatus = SpaceActivity.IDLE ∧
      (startSpace s now eff).1.startedAt = some now) ∧
    (∀ (s : SpaceClientState) (r : Bool) (now : Int),
      s.spaceStatus ≠ SpaceActivity.IDLE → s.currentSpace = true →
      (stopSpace r s now).spaceStatus = SpaceActivity.IDLE ∧
      (stopSpace r s now).spaceId = none ∧
      (stopSpace r s now).startedAt = none) ∧
    (∀ (s : SpaceClientState) (op : Op),
      hostingMarkersInv s → hostingMarkersInv (applyOp s op)) := by
  refine ⟨?_, ?_, ?_, ?_⟩
  · intro s now roomId
    exact ⟨rfl, rfl, rfl⟩
  · intro s now eff
    obtain ⟨r, p⟩ := eff
    cases r with
    | none => intro _; exact ⟨rfl, rfl⟩
    | some roomId =>
      by_cases hp : p = true
      · subst hp
        intro h
        exact absurd h (by simp [startSpace])
      · have hp' : p = false := by
          cases p
          · rfl
          · exact absurd rfl hp
        subst hp'
        intro _
        exact ⟨rfl, rfl⟩
  · intro s r now hne hcs
    unfold stopSpace
    rw [if_neg (by simp [hcs, hne])]
    exact ⟨rfl, rfl, rfl⟩
  · intro s op hinv
    cases op with
    | start now eff =>
      show hostingMarkersInv (startSpace s now eff).1
      obtain ⟨r, p⟩ := eff
      cases r with
      | none =>
        intro hH
        exact absurd hH (by simp [startSpace])
      | some roomId =>
        by_cases hp : p = true
        · subst hp
          intro _
          exact ⟨rfl, rfl⟩
        · have hp' : p = false := by
            cases p
            · rfl
            · exact absurd rfl hp
          subst hp'
          intro hH
          exact absurd hH (by simp [startSpace])
    | stop closeOk now =>
      show hostingMarkersInv (stopSpace closeOk s now)
      unfold stopSpace
      split
      · exact hinv
      · intro hH
        exact absurd hH (by simp)
    | join sid eff =>
      show hostingMarkersInv (joinSpace s sid eff).1
      unfold joinSpace
      split
      · exact hinv
      split
      · exact hinv
      split
      · intro hH
        exact absurd hH (by simp)
      split
      · intro hH
        exact absurd hH (by simp)
      · intro hH
        exact absurd hH (by simp)
    | handleReq janusCount req approveOk now =>
      show hostingMarkersInv (handleSpeakerRequest janusCount req approveOk now s)
      unfold handleSpeakerRequest
      split
      · exact hinv
      split
      · unfold acceptSpeaker
        split
        · exact hinv
        split
        · exact hinv
        · exact hinv
      · exact hinv
    | drain approveOk now =>
      exact hinv
    | evict now =>
      exact hinv
    | kick roomSpeakers =>
      show hostingMarkersInv (kickOp roomSpeakers s)
      unfold kickOp
      split
      · exact hinv
      · exact hinv
    | manage report approveOk closeOk now =>
      show hostingMarkersInv (manageCurrentSpace report approveOk closeOk now s)
      have hX : hostingMarkersInv
          (manageTrim report (acceptSpeakersFromQueueIfNeeded approveOk now (evictOp now s))) := by
        intro hH
        rw [(manageTrim_preserves _ _).1] at hH
        have hm := hinv hH
        rw [(manageTrim_preserves _ _).2.1, (manageTrim_preserves _ _).2.2]
        exact hm
      unfold manageCurrentSpace
      split
      · exact hinv
      split
      · unfold stopSpace
        split
        · exact hX
        · intro hH
          exact absurd hH (by simp)
      · exact hX

/-- C6 amended witness: a successful open defines both markers, a failed
open leaves `startedAt` defined with status IDLE, a real stop clears
everything, and the invariant is preserved by a stop on the hosting
client. -/
theorem lifecycle_markers_amended_witness :
    (startSpace freshClient 5 ⟨some "roomW", true⟩).1.spaceId = some "roomW" ∧
    (startSpace freshClient 5 ⟨none, true⟩).1.startedAt = some 5 ∧
    (stopSpace true hostingClient 9).spaceStatus = SpaceActivity.IDLE ∧
    hostingMarkersInv (applyOp hostingClient (Op.stop true 9)) :=
  ⟨(lifecycle_markers_amended.1 freshClient 5 "roomW").2.1,
   (lifecycle_markers_amended.2.1 freshClient 5 ⟨none, true⟩ rfl).2,
   (lifecycle_markers_amended.2.2.1 hostingClient true 9 (by decide) rfl).1,
   lifecycle_markers_amended.2.2.2 hostingClient (Op.stop true 9)
     (fun _ => ⟨rfl, rfl⟩)⟩

theorem manageTrim_currentSpace (r : RoomReport) (t : SpaceClientState) :
    (manageTrim r t).currentSpace = t.currentSpace := by
  unfold manageTrim
  split <;> rfl

theorem manageShouldStop_iff (opts : TwitterSpaceDecisionOptions) (st : Option Int)
    (now : Int) (ns nl : Nat) :
    manageShouldStop opts st now ns nl = true ↔
      ((opts.typicalDurationMinutes : Int) * 60000 < now - st.getD 0 ∨
        (ns = 0 ∧ nl = 0 ∧ (5 : Int) * 60000 < now - st.getD 0)) := by
  unfold manageShouldStop
  simp [Bool.or_eq_true, Bool.and_eq_true, decide_eq_true_eq, beq_iff_eq, and_assoc]

/-- C5: `manageCurrentSpace` triggers a session stop (status becomes
IDLE) iff the elapsed time exceeds `typicalDurationMinutes` or the room
reports zero speakers and zero listeners with more than 5 minutes
elapsed (all times in ms; `elapsedMinutes > m` is `elapsedMs > m*60000`
under exact rational division); and with one listener and exactly 4
minutes elapsed (and `typicalDurationMinutes ≥ 4`, e.g. the default 30)
it does not stop. -/
theorem manage_autoclose :
    (∀ (report : RoomReport) (approveOk : SpeakerRequest → Bool) (closeOk : Bool)
        (now : Int) (s : SpaceClientState),
      jsFalsyStr s.spaceId = false → s.currentSpace = true →
      s.spaceStatus = SpaceActivity.HOSTING →
      ((manageCurrentSpace report approveOk closeOk now s).spaceStatus = SpaceActivity.IDLE ↔
        ((s.decisionOptions.typicalDurationMinutes : Int) * 60000 < now - s.startedAt.getD 0 ∨
          (report.speakers.length = 0 ∧ report.listeners = 0 ∧
            (5 : Int) * 60000 < now - s.startedAt.getD 0)))) ∧
    (∀ (approveOk : SpeakerRequest → Bool) (closeOk : Bool) (s : SpaceClientState)
        (st : Int) (speakers : List String),
      jsFalsyStr s.spaceId = false → s.currentSpace = true →
      s.spaceStatus = SpaceActivity.HOSTING →
      s.startedAt = some st → 4 ≤ s.decisionOptions.typicalDurationMinutes →
      (manageCurrentSpace ⟨speakers, 1⟩ approveOk closeOk (st + 240000) s).spaceStatus =
        SpaceActivity.HOSTING) := by
  constructor
  · intro report approveOk closeOk now s hid hcs hH
    have hg : ¬ (jsFalsyStr s.spaceId = true ∨ s.currentSpace = false) := by
      simp [hid, hcs]
    have hXs : (manageTrim report
        (acceptSpeakersFromQueueIfNeeded approveOk now (evictOp now s))).spaceStatus =
          SpaceActivity.HOSTING := by
      rw [(manageTrim_preserves _ _).1]
      exact hH
    have hXc : (manageTrim report
        (acceptSpeakersFromQueueIfNeeded approveOk now (evictOp now s))).currentSpace = true := by
      rw [manageTrim_currentSpace]
      exact hcs
    unfold manageCurrentSpace
    rw [if_neg hg]
    by_cases hstop : manageShouldStop s.decisionOptions s.startedAt now
        report.speakers.length report.listeners = true
    · rw [if_pos hstop]
      constructor
      · intro _
        exact (manageShouldStop_iff _ _ _ _ _).mp hstop
      · intro _
        unfold stopSpace
        rw [if_neg (by simp [hXc, hXs])]
    · rw [if_neg hstop]
      constructor
      · intro habs
        rw [hXs] at habs
        exact absurd habs (by decide)
      · intro hrhs
        exact absurd ((manageShouldStop_iff _ _ _ _ _).mpr hrhs) hstop
  · intro approveOk closeOk s st speakers hid hcs hH hst htyp
    have hg : ¬ (jsFalsyStr s.spaceId = true ∨ s.currentSpace = false) := by
      simp [hid, hcs]
    have htypZ : (4 : Int) ≤ (s.decisionOptions.typicalDurationMinutes : Int) := by
      exact_mod_cast htyp
    have hstop : ¬ (manageShouldStop s.decisionOptions s.startedAt (st + 240000)
        speakers.length 1 = true) := by
      intro hc
      rw [manageShouldStop_iff] at hc
      rcases hc with hc | hc
      · rw [hst] at hc
        simp only [Option.getD_some] at hc
        omega
      · exact absurd hc.2.1 one_ne_zero
    unfold manageCurrentSpace
    rw [if_neg hg, if_neg hstop]
    rw [(manageTrim_preserves _ _).1]
    exact hH

/-- C5 witness: on the hosting client (started at 0, default duration
30 min) a poll at 30 min + 1 ms stops the session, while a poll at 4 min
with one listener leaves it hosting. -/
theorem manage_autoclose_witness :
    (manageCurrentSpace ⟨[], 0⟩ (fun _ => true) true 1800001 hostingClient).spaceStatus =
      SpaceActivity.IDLE ∧
    (manageCurrentSpace ⟨["u1"], 1⟩ (fun _ => true) true 240000 hostingClient).spaceStatus =
      SpaceActivity.HOSTING :=
  ⟨(manage_autoclose.1 ⟨[], 0⟩ (fun _ => true) true 1800001 hostingClient
      (by decide) rfl rfl).mpr (Or.inl (by decide)),
   manage_autoclose.2 (fun _ => true) true hostingClient 0 ["u1"]
      (by decide) rfl rfl rfl (by decide)⟩

/-- C8 counterexample: the claim says a negotiation failure is surfaced
to the join caller as a rejected outcome.  With a failing approval wait,
`joinSpace` still returns `some "sp1"` — after the inner catch (which
attempts the one cancellation) control falls through to
`return spaceId`, so the failure is swallowed, not surfaced. -/
theorem join_negotiation_cex :
    (joinSpace freshClient "sp1" ⟨true, true, false, false⟩).2.1 = some "sp1" ∧
    some "sp1" ≠ (none : Option String) ∧
    (joinSpace freshClient "sp1" ⟨true, true, false, false⟩).2.2 = 1 := by
  refine ⟨rfl, ?_, rfl⟩
  simp

/-- C8 (amended): on a negotiation failure (failed approval wait) after
a successful listener join and speaker request, the engine attempts the
cancellation exactly once, a cancel failure is not escalated (the
outcome is independent of the cancel result), but the failure is *not*
surfaced as a rejected outcome: `joinSpace` still returns the space id
to the caller. -/
theorem join_negotiation_amended (s : SpaceClientState) (sid : String) (c1 c2 : Bool)
    (hidle : s.spaceStatus = SpaceActivity.IDLE) :
    (joinSpace s sid ⟨true, true, false, c1⟩).2.2 = 1 ∧
    (joinSpace s sid ⟨true, true, false, c1⟩).2.1 = some sid ∧
    joinSpace s sid ⟨true, true, false, c1⟩ = joinSpace s sid ⟨true, true, false, c2⟩ := by
  have hg : ¬ (s.spaceStatus ≠ SpaceActivity.IDLE) := by
    simp [hidle]
  unfold joinSpace
  simp only [if_neg hg]
  refine ⟨rfl, rfl, ?_⟩
  trivial

/-- C8 amended witness: the amended behavior at a concrete idle client. -/
theorem join_negotiation_amended_witness :
    (joinSpace freshClient "sp9" ⟨true, true, false, true⟩).2.2 = 1 ∧
    (joinSpace freshClient "sp9" ⟨true, true, false, true⟩).2.1 = some "sp9" ∧
    joinSpace freshClient "sp9" ⟨true, true, false, true⟩ =
      joinSpace freshClient "sp9" ⟨true, true, false, false⟩ :=
  join_negotiation_amended freshClient "sp9" true false rfl

/-- Errors the promotion wait can settle with. -/
inductive WaitError where
  | finalizeFailed
  | timedOut
  deriving DecidableEq, Repr

/-- State of one `waitForApproval` negotiation (spaces.ts lines
540-577): the `resolved` flag, whether the `newSpeakerAccepted` handler
is still registered, how many times `participant.off` has been called,
and the settled outcome of the promise (none while pending). -/
structure WaitState where
  resolved : Bool
  registered : Bool
  offCount : Nat
  outcome : Option (Except WaitError Unit)

/-- Initial wait state: pending, handler registered. -/
def waitInit : WaitState :=
  { resolved := false, registered := true, offCount := 0, outcome := none }

/-- State after a matching acceptance event: handler unregistered once,
promise settled with the `becomeSpeaker` outcome (finalization failure
propagates as the wait's failure). -/
def waitSettled (becomeOk : Bool) : WaitState :=
  { resolved := true
    registered := false
    offCount := 1
    outcome := some (if becomeOk then Except.ok () else Except.error WaitError.finalizeFailed) }

/-- State after the timeout fires with no prior match: handler
unregistered once, promise rejected with the timeout error. -/
def waitTimedOut : WaitState :=
  { resolved := false
    registered := false
    offCount := 1
    outcome := some (Except.error WaitError.timedOut) }

/-- One occurrence during the wait: a `newSpeakerAccepted` event with
some request id, or the firing of the `setTimeout` callback. -/
inductive WaitEvent where
  | accepted (sessionUUID : String)
  | timeoutFires
  deriving DecidableEq, Repr

/-- One step of the `waitForApproval` race.  An accepted event runs the
handler only while it is registered; on a matching id the handler sets
`resolved`, unregisters itself (`off`), and settles with the
`becomeSpeaker` outcome.  The timeout callback, when `resolved` is still
false, unregisters the handler and rejects with a timeout error;
otherwise it does nothing. -/
def waitStep (target : String) (becomeOk : Bool) (st : WaitState) (e : WaitEvent) : WaitState :=
  match e with
  | .accepted id =>
    if st.registered = true ∧ id = target then
      { resolved := true
        registered := false
        offCount := st.offCount + 1
        outcome :=
          some (if becomeOk then Except.ok () else Except.error WaitError.finalizeFailed) }
    else st
  | .timeoutFires =>
    if st.resolved = false then
      { st with
        registered := false
        offCount := st.offCount + 1
        outcome := some (Except.error WaitError.timedOut) }
    else st

/-- Run a full sequence of occurrences from the initial wait state. -/
def runWait (target : String) (becomeOk : Bool) (events : List WaitEvent) : WaitState :=
  events.foldl (waitStep target becomeOk) waitInit

theorem waitSteps_settled (target : String) (becomeOk : Bool) :
    ∀ (evs : List WaitEvent) (st : WaitState),
      st.registered = false → st.resolved = true →
      List.foldl (waitStep target becomeOk) st evs = st := by
  intro evs
  induction evs with
  | nil => intro st _ _; rfl
  | cons e rest ih =>
    intro st hr hv
    have hstep : waitStep target becomeOk st e = st := by
      cases e with
      | accepted id => simp [waitStep, hr]
      | timeoutFires => simp [waitStep, hv]
    rw [List.foldl_cons, hstep]
    exact ih st hr hv

theorem waitSteps_noTimeout_unregistered (target : String) (becomeOk : Bool) :
    ∀ (evs : List WaitEvent) (st : WaitState),
      st.registered = false →
      (∀ e ∈ evs, e ≠ WaitEvent.timeoutFires) →
      List.foldl (waitStep target becomeOk) st evs = st := by
  intro evs
  induction evs with
  | nil => intro st _ _; rfl
  | cons e rest ih =>
    intro st hr hnt
    cases e with
    | accepted id =>
      rw [List.foldl_cons,
        show waitStep target becomeOk st (WaitEvent.accepted id) = st by simp [waitStep, hr]]
      exact ih st hr (fun x hx => hnt x (List.mem_cons_of_mem _ hx))
    | timeoutFires =>
      exact absurd rfl (hnt _ (List.mem_cons_self _ _))

theorem waitSteps_preTimeout (target : String) (becomeOk : Bool) :
    ∀ (evs : List WaitEvent),
      (∀ e ∈ evs, e ≠ WaitEvent.timeoutFires) →
      List.foldl (waitStep target becomeOk) waitInit evs =
        (if WaitEvent.accepted target ∈ evs then waitSettled becomeOk else waitInit) := by
  intro evs
  induction evs with
  | nil => intro _; simp
  | cons e rest ih =>
    intro hnt
    have hnt' : ∀ x ∈ rest, x ≠ WaitEvent.timeoutFires :=
      fun x hx => hnt x (List.mem_cons_of_mem e hx)
    cases e with
    | accepted id =>
      by_cases hid : id = target
      · rw [List.foldl_cons,
          show waitStep target becomeOk waitInit (WaitEvent.accepted id) = waitSettled becomeOk
            by simp [waitStep, waitInit, waitSettled, hid],
          waitSteps_settled target becomeOk rest _ rfl rfl]
        simp [hid]
      · have hid' : ¬ target = id := fun h => hid h.symm
        rw [List.foldl_cons,
          show waitStep target becomeOk waitInit (WaitEvent.accepted id) = waitInit
            by simp [waitStep, waitInit, hid],
          ih hnt']
        simp [List.mem_cons, hid']
    | timeoutFires =>
      exact absurd rfl (hnt _ (List.mem_cons_self _ _))

/-- C7: in the promotion wait, if a matching acceptance event arrives
before the timeout, the wait settles with the `becomeSpeaker` outcome
(finalization failure propagating as the wait's failure); if the timeout
elapses first with no match, the wait rejects with a timeout error; and
in both outcomes the acceptance listener is unregistered exactly once
(`offCount = 1`, `registered = false`). -/
theorem waitForApproval_settles_once (target : String) (becomeOk : Bool)
    (pre post : List WaitEvent)
    (hpre : ∀ e ∈ pre, e ≠ WaitEvent.timeoutFires)
    (hpost : ∀ e ∈ post, e ≠ WaitEvent.timeoutFires) :
    (runWait target becomeOk (pre ++ WaitEvent.timeoutFires :: post)).offCount = 1 ∧
    (runWait target becomeOk (pre ++ WaitEvent.timeoutFires :: post)).registered = false ∧
    (WaitEvent.accepted target ∈ pre →
      (runWait target becomeOk (pre ++ WaitEvent.timeoutFires :: post)).outcome =
        some (if becomeOk then Except.ok () else Except.error WaitError.finalizeFailed)) ∧
    (WaitEvent.accepted target ∉ pre →
      (runWait target becomeOk (pre ++ WaitEvent.timeoutFires :: post)).outcome =
        some (Except.error WaitError.timedOut)) := by
  have hsplit : runWait target becomeOk (pre ++ WaitEvent.timeoutFires :: post) =
      List.foldl (waitStep target becomeOk)
        (waitStep target becomeOk
          (List.foldl (waitStep target becomeOk) waitInit pre) WaitEvent.timeoutFires) post := by
    unfold runWait
    rw [List.foldl_append, List.foldl_cons]
  rw [waitSteps_preTimeout target becomeOk pre hpre] at hsplit
  by_cases hmem : WaitEvent.accepted target ∈ pre
  · rw [if_pos hmem,
      show waitStep target becomeOk (waitSettled becomeOk) WaitEvent.timeoutFires =
        waitSettled becomeOk by simp [waitStep, waitSettled],
      waitSteps_settled target becomeOk post _ rfl rfl] at hsplit
    rw [hsplit]
    exact ⟨rfl, rfl, fun _ => rfl, fun h => absurd hmem h⟩
  · rw [if_neg hmem,
      show waitStep target becomeOk waitInit WaitEvent.timeoutFires = waitTimedOut
        by simp [waitStep, waitInit, waitTimedOut],
      waitSteps_noTimeout_unregistered target becomeOk post _ rfl hpost] at hsplit
    rw [hsplit]
    exact ⟨rfl, rfl, fun h => absurd h hmem, fun _ => rfl⟩

/-- C7 witness: with a non-matching then a matching event before the
timeout and a stray matching event after it, the wait settles
successfully and the listener is unregistered exactly once. -/
theorem waitForApproval_settles_once_witness :
    (runWait "t1" true
      ([WaitEvent.accepted "zz", WaitEvent.accepted "t1"] ++
        WaitEvent.timeoutFires :: [WaitEvent.accepted "t1"])).offCount = 1 ∧
    (runWait "t1" true
      ([WaitEvent.accepted "zz", WaitEvent.accepted "t1"] ++
        WaitEvent.timeoutFires :: [WaitEvent.accepted "t1"])).outcome =
      some (Except.ok ()) := by
  have h := waitForApproval_settles_once "t1" true
    [WaitEvent.accepted "zz", WaitEvent.accepted "t1"] [WaitEvent.accepted "t1"]
    (by decide) (by decide)
  exact ⟨h.1, h.2.2.1 (by decide)⟩
